import Mathlib

/-!
Verification of the py_tmi Twitch chat client library.

Shallow embedding of the relevant parts of `src/py_tmi` (utils.py, parser.py,
event_emitter.py, message_queue.py, client_base.py, client.py).  Python
strings are `String`/`List Char`, dictionaries are ordered association
lists with overwrite-in-place assignment, asynchronous delivery of event
payloads is an explicit `Option` parameter (`none` models a timeout), and
float configuration values are rationals.
-/

namespace PyTmi

/-! ## Python string primitives

Helpers mirroring the Python `str` methods the embedded code uses, written
over the character list of the string so that every definition is
structurally recursive and evaluable by the kernel.  They are ASCII-exact,
which covers all inputs the claims are about. -/

/-- Python `s.startswith(pre)`. -/
def pyStartsWith (s pre : String) : Bool := pre.data.isPrefixOf s.data

/-- Python `s.endswith(suff)`. -/
def pyEndsWith (s suff : String) : Bool := suff.data.isSuffixOf s.data

/-- Python `s.lower()` (ASCII). -/
def pyLower (s : String) : String := ⟨s.data.map Char.toLower⟩

/-- Python `s[n:]`. -/
def pyDrop (s : String) (n : Nat) : String := ⟨s.data.drop n⟩

/-- Python `s[:n]`. -/
def pyTake (s : String) (n : Nat) : String := ⟨s.data.take n⟩

/-- Python `s[:-1]`. -/
def pyDropLast (s : String) : String := ⟨s.data.dropLast⟩

/-- Scanner for `pySplit`: left-to-right, non-overlapping matches of the
(non-empty) separator cut the string; empty segments are kept.  One unit
of fuel is spent per consumed character, so the input length is enough. -/
def splitOnCore (sep : List Char) : Nat → List Char → List Char → List (List Char)
  | _, acc, [] => [acc.reverse]
  | 0, acc, l => [acc.reverse ++ l]
  | fuel + 1, acc, c :: rest =>
    if sep.isPrefixOf (c :: rest) then
      acc.reverse :: splitOnCore sep fuel [] ((c :: rest).drop sep.length)
    else splitOnCore sep fuel (c :: acc) rest

/-- Python `s.split(sep)` for a non-empty separator. -/
def pySplit (s sep : String) : List String :=
  (splitOnCore sep.data s.data.length [] s.data).map (fun l => ⟨l⟩)

/-! ## Payload values

A Python value appearing inside an event payload tuple: `None`, a string,
a boolean, a list of strings, or an integer. -/

inductive Value where
  | null
  | vstr (s : String)
  | vbool (b : Bool)
  | vlist (l : List String)
  | vnat (n : Nat)
deriving DecidableEq, Repr

/-- An event payload: the tuple of arguments the emitter passes to listeners. -/
abbrev Payload := List Value

/-- The exceptions of `py_tmi.exceptions` that the command/await layer raises. -/
inductive CmdError where
  | commandTimedOut (event : String)
  | commandFailed (command reason : String)
deriving DecidableEq, Repr

/-- Embeds `ClientBase.wait_for` (client_base.py lines 346-367) with the
predicate argument left at its default `None`.  The asynchronous wait is
modelled by the `delivered` parameter: `some args` is the payload tuple of
the first emission of the event before the timeout, `none` means the
timeout expired, in which case `CommandTimedOut` is raised. -/
def wait_for (event : String) (delivered : Option Payload) : Except CmdError Payload :=
  match delivered with
  | some args => .ok args
  | none => .error (.commandTimedOut event)

/-- Embeds `Client._await_success` (client.py lines 263-276): await the event
via `wait_for`; if the result tuple is non-empty and its first element is a
non-empty string, raise `CommandFailed(command, error)`; otherwise return
the result tuple.  A `CommandTimedOut` from `wait_for` propagates. -/
def await_success (event command : String) (delivered : Option Payload) :
    Except CmdError Payload :=
  match wait_for event delivered with
  | .error e => .error e
  | .ok result =>
    match result with
    | [] => .ok result
    | e0 :: _ =>
      match e0 with
      | .vstr s => if s = "" then .ok result else .error (.commandFailed command s)
      | _ => .ok result

/-! ## IRC tag escape codec (utils.py lines 10-14, 84-98) -/

/-- Embeds `IRC_UNESCAPED_CHARS` (utils.py line 14): the characters the
escape regex class `[ \n;\r\\]` matches, mapped to their escape letters. -/
def IRC_UNESCAPED_CHARS (c : Char) : Option Char :=
  if c = ' ' then some 's'
  else if c = '\n' then some 'n'
  else if c = ';' then some ':'
  else if c = '\r' then some 'r'
  else if c = '\\' then some '\\'
  else none

/-- One step of `escape_irc`: a character in the regex class is replaced by
a backslash followed by its mapped letter; any other character is kept. -/
def escapeIrcChar (c : Char) : List Char :=
  match IRC_UNESCAPED_CHARS c with
  | some e => ['\\', e]
  | none => [c]

/-- Character-list core of `escape_irc`: the regex substitution applied
left to right over the whole string. -/
def escapeCore : List Char → List Char
  | [] => []
  | c :: rest => escapeIrcChar c ++ escapeCore rest

/-- Embeds `utils.escape_irc` (utils.py lines 90-98).  The falsy guard
returns the empty string unchanged. -/
def escape_irc (value : String) : String :=
  if value = "" then value else ⟨escapeCore value.data⟩

/-- Embeds `IRC_ESCAPED_CHARS.get(g, g)` (utils.py line 13): the decoded
replacement for a captured escape letter.  `n` and `r` decode to the empty
string (the newline is consumed); a letter absent from the dict (only `\`
can occur, from the regex class) decodes to itself. -/
def IRC_ESCAPED_CHARS (c : Char) : List Char :=
  if c = 's' then [' ']
  else if c = 'n' then []
  else if c = ':' then [';']
  else if c = 'r' then []
  else [c]

/-- The capture class of `UNESCAPE_IRC_REGEX`, `\\([sn:r\\])` (utils.py line 10). -/
def isEscapeClass (c : Char) : Bool :=
  c = 's' || c = 'n' || c = ':' || c = 'r' || c = '\\'

/-- Character-list core of `unescape_irc`: the regex scan.  A backslash
followed by a class letter is one match and is replaced; a backslash not
followed by a class letter is left and scanning resumes at the next
character; all other characters are copied. -/
def unescapeCore : List Char → List Char
  | [] => []
  | [c] => [c]
  | c :: c2 :: rest2 =>
    if c = '\\' then
      if isEscapeClass c2 then IRC_ESCAPED_CHARS c2 ++ unescapeCore rest2
      else c :: unescapeCore (c2 :: rest2)
    else c :: unescapeCore (c2 :: rest2)

/-- Embeds `utils.unescape_irc` (utils.py lines 84-87).  The guard
`if not value or "\\" not in value: return value` is the first branch. -/
def unescape_irc (value : String) : String :=
  if value = "" || !(value.data.contains '\\') then value
  else ⟨unescapeCore value.data⟩

/-! ## Channel and username normalization, anonymity (utils.py lines 45-56) -/

/-- Embeds `utils.is_justinfan` (utils.py lines 9, 45-46): the regex
`^(justinfan)(\d+)$` matched against the username (Python treats a match
object as truthy).  The prefix must be followed by at least one digit and
nothing else. -/
def is_justinfan (username : String) : Bool :=
  pyStartsWith username "justinfan"
    && pyDrop username 9 ≠ ""
    && (pyDrop username 9).data.all Char.isDigit

/-- Embeds `utils.channel` (utils.py lines 49-51): lowercase, prepend `#`
when absent.  `none` models a Python `None` argument (the `value or ""`
guard). -/
def uChannel (value : Option String) : String :=
  let normalized := pyLower (value.getD "")
  if pyStartsWith normalized "#" then normalized else "#" ++ normalized

/-- Embeds `utils.username` (utils.py lines 54-56): lowercase, strip one
leading `#`. -/
def uUsername (value : Option String) : String :=
  let normalized := pyLower (value.getD "")
  if pyStartsWith normalized "#" then pyDrop normalized 1 else normalized

/-! ## The send path (client_base.py `say`, client.py `say` / `action` /
`whisper`) and its three rate-limited queues -/

/-- An entry sitting in one of the three `MessageQueue`s (or sent on the
immediate path): the dispatch closure is represented by the data it
captured. -/
inductive QueuedSend where
  | privmsg (channel message : String)
  | command (channel line : String)
  | rawCommand (line : String)
  | joinCmd (channel : String)
deriving DecidableEq, Repr

/-- The slice of `ClientBase` state the send path reads and writes:
the authenticated username, the `is_connected` property, the
`_global_default_channel`, and the contents of the three send queues. -/
structure ClientState where
  username : String
  connected : Bool
  globalDefaultChannel : String
  messageQ : List QueuedSend
  commandQ : List QueuedSend
  joinQ : List QueuedSend
deriving DecidableEq, Repr

/-- The exceptions the send path raises. -/
inductive SendError where
  | notConnected
  | anonymousMessage
  | commandFailed (command reason : String)
deriving DecidableEq, Repr

/-- Embeds `ClientBase.say` (client_base.py lines 258-270): normalize the
channel; raise `NotConnectedError` when not connected; raise
`AnonymousMessageError` when the username is a justinfan name; otherwise
enqueue the PRIVMSG dispatch on the message queue and return
`(channel_name, message)`. -/
def base_say (st : ClientState) (channel message : String) :
    Except SendError (ClientState × String × String) :=
  let channelName := uChannel (some channel)
  if !st.connected then .error .notConnected
  else if is_justinfan st.username then .error .anonymousMessage
  else .ok ({ st with messageQ := st.messageQ ++ [.privmsg channelName message] },
            channelName, message)

/-- Embeds `ClientBase._send_command` (client_base.py lines 316-334): with a
truthy channel the dispatch is enqueued on the command queue; with `None`
(or an empty channel) it is dispatched immediately.  The second component
lists the lines written on the immediate path. -/
def send_command (st : ClientState) (channel : Option String) (command : String) :
    ClientState × List String :=
  match channel with
  | some c =>
    if c ≠ "" then ({ st with commandQ := st.commandQ ++ [.command c command] }, [])
    else (st, [command])
  | none => (st, [command])

/-- Embeds `Client.action` (client.py lines 13-16): wrap the message in the
CTCP ACTION frame and delegate to `ClientBase.say`; the returned tuple keeps
the unwrapped message. -/
def client_action (st : ClientState) (channel message : String) :
    Except SendError (ClientState × String × String) :=
  match base_say st channel ("\x01ACTION " ++ message ++ "\x01") with
  | .error e => .error e
  | .ok (st1, _, _) => .ok (st1, uChannel (some channel), message)

/-- Embeds `Client.say` (client.py lines 156-163): a message starting with
single `.`, `/` or `\` is a command: with a `me ` prefix it delegates to
`action`, otherwise to `_send_command` on the command queue; everything
else goes through `ClientBase.say`. -/
def client_say (st : ClientState) (channel message : String) :
    Except SendError (ClientState × String × String) :=
  let channelName := uChannel (some channel)
  if (pyStartsWith message "." && !pyStartsWith message "..")
      || pyStartsWith message "/" || pyStartsWith message "\\" then
    if pyTake (pyDrop message 1) 3 = "me " then
      client_action st channelName (pyDrop message 4)
    else
      .ok ((send_command st (some channelName) message).1, channelName, message)
  else
    base_say st channelName message

/-- Embeds `Client.whisper` (client.py lines 238-261): refuse to whisper the
own account; enqueue the `/w` command on the command queue via
`_send_command` with the global default channel; await `_promiseWhisper`
for up to five seconds, swallowing a timeout (`whisperAck = none`) and
raising `CommandFailed` when the first payload element is a non-empty
string; finally emit the local whisper/message events and return.  The
state is returned alongside the outcome because the enqueue happens before
any failure. -/
def client_whisper (st : ClientState) (user message : String)
    (whisperAck : Option Payload) : ClientState × Except SendError (String × String) :=
  let target := uUsername (some user)
  if target = st.username then (st, .error .anonymousMessage)
  else
    let command := "/w " ++ target ++ " " ++ message
    let st1 := (send_command st (some st.globalDefaultChannel) command).1
    let failure : Option String :=
      match whisperAck with
      | none => none
      | some result =>
        match result with
        | .vstr s :: _ => if s = "" then none else some s
        | _ => none
    match failure with
    | some s => (st1, .error (.commandFailed command s))
    | none => (st1, .ok (target, message))

/-! ## Message pagination (utils.py lines 101-109) -/

/-- Python `str.isspace` restricted to the ASCII whitespace characters that
`str.lstrip()` strips. -/
def isSpacePy (c : Char) : Bool :=
  c = ' ' || c = '\t' || c = '\n' || c = '\x0b' || c = '\x0c' || c = '\r'

/-- Embeds `text.rfind(" ", 0, limit)` (utils.py line 104): the largest
index below `limit` holding a space, `none` when there is none (Python
returns `-1`, which the caller replaces by `limit`). -/
def rfindSpace (l : List Char) (limit : Nat) : Option Nat :=
  ((List.range limit).filter (fun i => l.get? i == some ' ')).getLast?

/-- Character-list core of `paginate_message` (utils.py lines 101-109).
Each loop iteration strictly shrinks the text when `limit > 0`, so the
initial length is enough fuel to reproduce every iteration of the Python
`while` loop; with `limit = 0` the Python generator can loop forever and
the fuel cuts the divergence off. -/
def paginateChunks : Nat → List Char → Nat → List (List Char)
  | 0, text, _ => [text]
  | fuel + 1, text, limit =>
    if limit < text.length then
      let sp := (rfindSpace text limit).getD limit
      text.take sp :: paginateChunks fuel ((text.drop sp).dropWhile isSpacePy) limit
    else [text]

/-- Embeds `utils.paginate_message` (utils.py lines 101-109), the generator
run to completion. -/
def paginate_message (message : String) (limit : Nat) : List String :=
  (paginateChunks message.data.length message.data limit).map (fun l => ⟨l⟩)

/-- Joins pagination chunks back together with one separator string between
consecutive chunks (used to state what pagination preserves). -/
def joinChunks : List String → List String → String
  | [], _ => ""
  | c :: cs, [] => c ++ joinChunks cs []
  | c :: cs, s :: ss => c ++ s ++ joinChunks cs ss

/-- List-level version of `joinChunks`. -/
def joinChunksL : List (List Char) → List (List Char) → List Char
  | [], _ => []
  | c :: cs, [] => c ++ joinChunksL cs []
  | c :: cs, s :: ss => c ++ s ++ joinChunksL cs ss

/-! ## The IRC frame parser (parser.py lines 103-160) -/

/-- A parsed tag value before post-processing: either the raw string of a
`key=value` chunk with non-empty value, or the Python `True` marker that
`parse_message` stores for a bare chunk or an empty value. -/
inductive TagValue where
  | tstr (s : String)
  | tbool (b : Bool)
deriving DecidableEq, Repr

/-- A Python dict of tags: an insertion-ordered association list where
assignment overwrites in place. -/
def dictSet (d : List (String × TagValue)) (k : String) (v : TagValue) :
    List (String × TagValue) :=
  if d.any (fun p => p.1 == k) then d.map (fun p => if p.1 == k then (k, v) else p)
  else d ++ [(k, v)]

/-- Embeds `tag.split("=", 1)` preceded by the `"=" in tag` test
(parser.py lines 117-118): `some (key, value)` splits at the first `=`,
`none` means the chunk holds no `=`. -/
def splitFirstEq (s : String) : Option (String × String) :=
  match s.data.findIdx? (· == '=') with
  | none => none
  | some i => some (⟨s.data.take i⟩, ⟨s.data.drop (i + 1)⟩)

/-- Embeds the body of the tag loop of `parse_message` (parser.py lines
116-121) for one semicolon-separated chunk: with an `=` present the value
is stored via `value or True` (so an empty value stores the `True`
marker), without an `=` the bare chunk stores `True`. -/
def applyTagChunk (tags : List (String × TagValue)) (chunk : String) :
    List (String × TagValue) :=
  match splitFirstEq chunk with
  | some (key, value) =>
    dictSet tags key (if value = "" then .tbool true else .tstr value)
  | none => dictSet tags chunk (.tbool true)

/-- The whole tag loop over the chunks of `data[1:next_space].split(";")`. -/
def parseRawTags (tags : List (String × TagValue)) (chunks : List String) :
    List (String × TagValue) :=
  chunks.foldl applyTagChunk tags

/-- Embeds `data.find(" ", pos)` (parser.py): index of the first space at
or after `pos`, `none` for Python `-1`. -/
def findSpaceFrom (chars : List Char) (pos : Nat) : Option Nat :=
  ((chars.drop pos).findIdx? (· == ' ')).map (· + pos)

/-- Embeds the `while position < length and data[position] == " "` space
skipping loops of `parse_message`. -/
def skipSpaces (chars : List Char) (pos : Nat) : Nat :=
  pos + ((chars.drop pos).takeWhile (· == ' ')).length

/-- Python slice `data[a:b]` on the underlying characters. -/
def sliceStr (chars : List Char) (a b : Nat) : String :=
  ⟨(chars.drop a).take (b - a)⟩

/-- The parsed IRC frame (parser.py `IRCMessage`, lines 12-18).  The
`prefix` field is called `pfx` here. -/
structure IRCMessage where
  raw : String
  tags : List (String × TagValue)
  pfx : Option String
  command : Option String
  params : List String
deriving DecidableEq, Repr

/-- The parameter loop of `parse_message` (parser.py lines 147-158).  Each
iteration strictly increases the position, so `chars.length + 1` steps of
fuel reproduce every iteration of the Python loop. -/
def parseParamsF : Nat → List Char → Nat → List String
  | 0, _, _ => []
  | fuel + 1, chars, pos =>
    if pos < chars.length then
      if chars.get? pos == some ':' then [sliceStr chars (pos + 1) chars.length]
      else
        match findSpaceFrom chars pos with
        | none => [sliceStr chars pos chars.length]
        | some ns =>
          sliceStr chars pos ns :: parseParamsF fuel chars (skipSpaces chars (ns + 1))
    else []

/-- Embeds `parser.parse_message` (parser.py lines 103-160): the four
phases of the single left-to-right scan — optional `@tags` segment,
space skipping, optional `:prefix` segment, mandatory command token, and
the parameter loop.  `none` is the Python `return None` on empty or
malformed input. -/
def parse_message (data : String) : Option IRCMessage :=
  let chars := data.data
  let length := chars.length
  if length = 0 then none
  else
    let tagStep : Option (List (String × TagValue) × Nat) :=
      if chars.get? 0 == some '@' then
        match findSpaceFrom chars 0 with
        | none => none
        | some ns => some (parseRawTags [] (pySplit (sliceStr chars 1 ns) ";"), ns + 1)
      else some ([], 0)
    match tagStep with
    | none => none
    | some (tags, pos0) =>
      let pos1 := skipSpaces chars pos0
      let pfxStep : Option (Option String × Nat) :=
        if chars.get? pos1 == some ':' then
          match findSpaceFrom chars pos1 with
          | none => none
          | some ns => some (some (sliceStr chars (pos1 + 1) ns), skipSpaces chars (ns + 1))
        else some (none, pos1)
      match pfxStep with
      | none => none
      | some (pfx, pos2) =>
        if length ≤ pos2 then none
        else
          match findSpaceFrom chars pos2 with
          | none =>
            some { raw := data, tags := tags, pfx := pfx,
                   command := some (sliceStr chars pos2 length), params := [] }
          | some ns =>
            some { raw := data, tags := tags, pfx := pfx,
                   command := some (sliceStr chars pos2 ns),
                   params := parseParamsF (length + 1) chars (ns + 1) }

/-! ## The rate-limited send queue (message_queue.py lines 14-46) -/

/-- The observable state of one `MessageQueue`: the FIFO contents of
`self._queue` (items named by numbers), whether `self._worker` is a live
task (`None`/cancelled/done all map to `false`), and the trace of
callbacks the worker has run. -/
structure MQState where
  pending : List Nat
  workerRunning : Bool
  executed : List Nat
deriving DecidableEq, Repr

/-- A fresh `MessageQueue`: empty queue, no worker. -/
def mq0 : MQState := { pending := [], workerRunning := false, executed := [] }

/-- Embeds `MessageQueue.add` (message_queue.py lines 23-26): put the item,
then start a worker if none is running. -/
def mq_add (st : MQState) (item : Nat) : MQState :=
  let st1 := { st with pending := st.pending ++ [item] }
  if !st1.workerRunning then { st1 with workerRunning := true } else st1

/-- Embeds `MessageQueue.stop` (message_queue.py lines 43-46): cancel the
worker if present and forget it.  The queue contents are untouched. -/
def mq_stop (st : MQState) : MQState :=
  if st.workerRunning then { st with workerRunning := false } else st

/-- One iteration of the worker loop `MessageQueue._run` (message_queue.py
lines 28-38): when a worker is running and an item is queued, take it and
run its callback (recorded in `executed`). -/
def mq_workerStep (st : MQState) : MQState :=
  if st.workerRunning then
    match st.pending with
    | [] => st
    | i :: rest => { st with pending := rest, executed := st.executed ++ [i] }
  else st

/-! ## Disconnect handling and reconnect backoff (client_base.py lines
196-224) -/

/-- The fields of `ClientBase` that `_handle_disconnect` reads and
writes.  Float timers are rationals. -/
structure DisconnectState where
  wasCloseCalled : Bool
  reconnect : Bool
  reconnections : Nat
  maxReconnectAttempts : Option Nat
  maxReconnectInterval : ℚ
  reconnectTimer : ℚ
  reconnectDecay : ℚ
  reconnecting : Bool
deriving DecidableEq, Repr

/-- What `_handle_disconnect` does after closing the socket. -/
inductive DisconnectResult where
  | closedQuiet
  | stop
  | failed
  | retryAfter (delay : ℚ)
deriving DecidableEq, Repr

/-- Embeds `ClientBase._handle_disconnect` (client_base.py lines 196-224)
up to the point where the reconnect attempt starts: the result is the new
state, the events emitted (in order), and what happens next.  With
`was_close_called` the handler only closes; with reconnect disabled it
returns after emitting `disconnected`; with `max_reconnect_attempts` set
and reached it emits `reconnect_failed`; otherwise it flags
`reconnecting`, bumps `reconnections`, computes the delay
`min(reconnect_timer, max_reconnect_interval)`, multiplies the timer by
`reconnect_decay`, and retries after the delay. -/
def handle_disconnect (st : DisconnectState) :
    DisconnectState × List String × DisconnectResult :=
  if st.wasCloseCalled then (st, [], .closedQuiet)
  else if !st.reconnect then (st, ["disconnected"], .stop)
  else if (match st.maxReconnectAttempts with
           | some m => decide (m ≤ st.reconnections)
           | none => false) then
    (st, ["disconnected", "reconnect_failed"], .failed)
  else
    let delay := min st.reconnectTimer st.maxReconnectInterval
    ({ st with reconnecting := true, reconnections := st.reconnections + 1,
               reconnectTimer := st.reconnectTimer * st.reconnectDecay },
     ["disconnected"], .retryAfter delay)

/-! ## EventEmitter.emit_many (event_emitter.py lines 75-81) -/

/-- The loop of `emit_many`: for each event, in order, look up
`payloads_list[index] if index < len(payloads_list) else payloads_list[-1]`
and emit.  `payloads_list[-1]` on an empty list raises `IndexError`; the
`.error` carries the emissions performed before the raise.  Listener
dispatch is abstracted: an emission is recorded as the `(event, payload)`
pair `self.emit` was called with. -/
def emitManyGo (payloadsList : List Payload) :
    List String → Nat → List (String × Payload) →
    Except (List (String × Payload)) (List (String × Payload))
  | [], _, emitted => .ok emitted
  | e :: rest, index, emitted =>
    match (if index < payloadsList.length then payloadsList.get? index
           else payloadsList.getLast?) with
    | none => .error emitted
    | some p => emitManyGo payloadsList rest (index + 1) (emitted ++ [(e, p)])

/-- Embeds `EventEmitter.emit_many` (event_emitter.py lines 75-81). -/
def emit_many (events : List String) (payloads : List Payload) :
    Except (List (String × Payload)) (List (String × Payload)) :=
  emitManyGo payloads events 0 []

/-- The emissions `emit_many` performs, whether or not it raises at the
end (used by the NOTICE dispatcher, whose payload lists are never empty). -/
def emitManyOk (events : List String) (payloads : List Payload) :
    List (String × Payload) :=
  match emit_many events payloads with
  | .ok l => l
  | .error l => l

/-! ## The NOTICE dispatcher (client_base.py lines 514-799) -/

/-- A Python `Optional[str]` as a payload value (`None` becomes null). -/
def optStrVal : Option String → Value
  | some s => .vstr s
  | none => .null

/-- Python `sub in s` substring containment. -/
def pyIn (sub s : String) : Bool := (s.splitOn sub).length != 1

/-- Python `int` of a non-empty digit string. -/
def natOfDigits (l : List Char) : Nat :=
  l.foldl (fun acc c => acc * 10 + (c.toNat - 48)) 0

/-- What `_handle_notice` does besides emitting. -/
inductive NoticeAction where
  | actNone
  | actAuthDisconnect (reason : String)
deriving DecidableEq, Repr

/-- Embeds `ClientBase._handle_notice` (client_base.py lines 514-799): the
`msg-id` table.  Inputs are the normalized channel, the `msg-id` tag
(`none` when absent) and the trailing message parameter; the result is the
ordered list of `(event, payload)` emissions plus the follow-up action
(the fatal-authentication branches flip `was_close_called`/`reconnect`,
record the reason and run the disconnect path, summarized as
`actAuthDisconnect`; logging calls are dropped). -/
def handle_notice (channel : String) (msgid : Option String) (msg : String) :
    List (String × Payload) × NoticeAction :=
  let notice_payload : Payload := [.vstr channel, optStrVal msgid, .vstr msg]
  let null_payload : Payload := [.null]
  let msgid_payload : Payload := [optStrVal msgid]
  let channel_true : Payload := [.vstr channel, .vbool true]
  let channel_false : Payload := [.vstr channel, .vbool false]
  if msgid == some "subs_on" then
    (emitManyOk ["subscriber", "subscribers", "_promiseSubscribers"]
      [channel_true, channel_true, [.null]], .actNone)
  else if msgid == some "subs_off" then
    (emitManyOk ["subscriber", "subscribers", "_promiseSubscribersoff"]
      [channel_false, channel_false, [.null]], .actNone)
  else if msgid == some "emote_only_on" then
    (emitManyOk ["emoteonly", "_promiseEmoteonly"] [channel_true, [.null]], .actNone)
  else if msgid == some "emote_only_off" then
    (emitManyOk ["emoteonly", "_promiseEmoteonlyoff"] [channel_false, [.null]], .actNone)
  else if msgid == some "slow_on" || msgid == some "slow_off"
      || msgid == some "followers_on_zero" || msgid == some "followers_on"
      || msgid == some "followers_off" then
    ([], .actNone)
  else if msgid == some "r9k_on" then
    (emitManyOk ["r9kmode", "r9kbeta", "_promiseR9kbeta"]
      [channel_true, channel_true, [.null]], .actNone)
  else if msgid == some "r9k_off" then
    (emitManyOk ["r9kmode", "r9kbeta", "_promiseR9kbetaoff"]
      [channel_false, channel_false, [.null]], .actNone)
  else if msgid == some "room_mods" then
    let parts := pySplit msg ": "
    let mods0 := pySplit (pyLower (parts.getD 1 "")) ", "
    let mods := mods0.filter (fun name => name != "")
    (emitManyOk ["_promiseMods", "mods"]
      [[.null, .vlist mods], [.vstr channel, .vlist mods]], .actNone)
  else if msgid == some "no_mods" then
    (emitManyOk ["_promiseMods", "mods"]
      [[.null, .vlist []], [.vstr channel, .vlist []]], .actNone)
  else if msgid == some "vips_success" then
    let trimmed := if pyEndsWith msg "." then pyDropLast msg else msg
    let parts := pySplit trimmed ": "
    let vips0 := pySplit (pyLower (parts.getD 1 "")) ", "
    let vips := vips0.filter (fun name => name != "")
    (emitManyOk ["_promiseVips", "vips"]
      [[.null, .vlist vips], [.vstr channel, .vlist vips]], .actNone)
  else if msgid == some "no_vips" then
    (emitManyOk ["_promiseVips", "vips"]
      [[.null, .vlist []], [.vstr channel, .vlist []]], .actNone)
  else if msgid == some "already_banned" || msgid == some "bad_ban_admin"
      || msgid == some "bad_ban_anon" || msgid == some "bad_ban_broadcaster"
      || msgid == some "bad_ban_global_mod" || msgid == some "bad_ban_mod"
      || msgid == some "bad_ban_self" || msgid == some "bad_ban_staff"
      || msgid == some "usage_ban" then
    (emitManyOk ["notice", "_promiseBan"] [notice_payload, msgid_payload], .actNone)
  else if msgid == some "ban_success" then
    (emitManyOk ["notice", "_promiseBan"] [notice_payload, null_payload], .actNone)
  else if msgid == some "usage_clear" then
    (emitManyOk ["notice", "_promiseClear"] [notice_payload, msgid_payload], .actNone)
  else if msgid == some "usage_mods" then
    (emitManyOk ["notice", "_promiseMods"]
      [notice_payload, [optStrVal msgid, .vlist []]], .actNone)
  else if msgid == some "mod_success" then
    (emitManyOk ["notice", "_promiseMod"] [notice_payload, null_payload], .actNone)
  else if msgid == some "usage_vips" then
    (emitManyOk ["notice", "_promiseVips"]
      [notice_payload, [optStrVal msgid, .vlist []]], .actNone)
  else if msgid == some "usage_vip" then
    (emitManyOk ["notice", "_promiseVip"] [notice_payload, msgid_payload], .actNone)
  else if msgid == some "bad_vip_grantee_banned" || msgid == some "bad_vip_grantee_already_vip"
      || msgid == some "bad_vip_max_vips_reached"
      || msgid == some "bad_vip_achievement_incomplete" then
    (emitManyOk ["notice", "_promiseVip"] [notice_payload, msgid_payload], .actNone)
  else if msgid == some "vip_success" then
    (emitManyOk ["notice", "_promiseVip"] [notice_payload, null_payload], .actNone)
  else if msgid == some "usage_mod" then
    (emitManyOk ["notice", "_promiseMod"] [notice_payload, msgid_payload], .actNone)
  else if msgid == some "bad_mod_banned" || msgid == some "bad_mod_mod" then
    (emitManyOk ["notice", "_promiseMod"] [notice_payload, msgid_payload], .actNone)
  else if msgid == some "unmod_success" then
    (emitManyOk ["notice", "_promiseUnmod"] [notice_payload, null_payload], .actNone)
  else if msgid == some "unvip_success" then
    (emitManyOk ["notice", "_promiseUnvip"] [notice_payload, null_payload], .actNone)
  else if msgid == some "usage_unmod" then
    (emitManyOk ["notice", "_promiseUnmod"] [notice_payload, msgid_payload], .actNone)
  else if msgid == some "bad_unmod_mod" then
    (emitManyOk ["notice", "_promiseUnmod"] [notice_payload, msgid_payload], .actNone)
  else if msgid == some "usage_unvip" then
    (emitManyOk ["notice", "_promiseUnvip"] [notice_payload, msgid_payload], .actNone)
  else if msgid == some "bad_unvip_grantee_not_vip" then
    (emitManyOk ["notice", "_promiseUnvip"] [notice_payload, msgid_payload], .actNone)
  else if msgid == some "color_changed" then
    (emitManyOk ["notice", "_promiseColor"] [notice_payload, null_payload], .actNone)
  else if msgid == some "usage_color" || msgid == some "turbo_only_color" then
    (emitManyOk ["notice", "_promiseColor"] [notice_payload, msgid_payload], .actNone)
  else if msgid == some "commercial_success" then
    (emitManyOk ["notice", "_promiseCommercial"] [notice_payload, null_payload], .actNone)
  else if msgid == some "usage_commercial" || msgid == some "bad_commercial_error" then
    (emitManyOk ["notice", "_promiseCommercial"] [notice_payload, msgid_payload], .actNone)
  else if msgid == some "hosts_remaining" then
    let ds := msg.data.filter Char.isDigit
    let remaining := if ds.isEmpty then 0 else natOfDigits ds
    (emitManyOk ["notice", "_promiseHost"]
      [notice_payload, [.null, .vnat remaining]], .actNone)
  else if msgid == some "bad_host_hosting" || msgid == some "bad_host_rate_exceeded"
      || msgid == some "bad_host_error" || msgid == some "usage_host" then
    (emitManyOk ["notice", "_promiseHost"] [notice_payload, msgid_payload], .actNone)
  else if msgid == some "already_r9k_on" || msgid == some "usage_r9k_on" then
    (emitManyOk ["notice", "_promiseR9kbeta"] [notice_payload, msgid_payload], .actNone)
  else if msgid == some "already_r9k_off" || msgid == some "usage_r9k_off" then
    (emitManyOk ["notice", "_promiseR9kbetaoff"] [notice_payload, msgid_payload], .actNone)
  else if msgid == some "timeout_success" then
    (emitManyOk ["notice", "_promiseTimeout"] [notice_payload, null_payload], .actNone)
  else if msgid == some "delete_message_success" then
    (emitManyOk ["notice", "_promiseDeletemessage"] [notice_payload, null_payload], .actNone)
  else if msgid == some "already_subs_off" || msgid == some "usage_subs_off"
      || msgid == some "already_subs_on" || msgid == some "usage_subs_on" then
    (emitManyOk ["notice", "_promiseSubscribers"] [notice_payload, msgid_payload], .actNone)
  else if msgid == some "already_emote_only_off" || msgid == some "usage_emote_only_off"
      || msgid == some "already_emote_only_on" || msgid == some "usage_emote_only_on" then
    (emitManyOk ["notice", "_promiseEmoteonly"] [notice_payload, msgid_payload], .actNone)
  else if msgid == some "usage_slow_on" then
    (emitManyOk ["notice", "_promiseSlow"] [notice_payload, msgid_payload], .actNone)
  else if msgid == some "usage_slow_off" then
    (emitManyOk ["notice", "_promiseSlowoff"] [notice_payload, msgid_payload], .actNone)
  else if msgid == some "usage_timeout" || msgid == some "bad_timeout_admin"
      || msgid == some "bad_timeout_anon" || msgid == some "bad_timeout_broadcaster"
      || msgid == some "bad_timeout_duration" || msgid == some "bad_timeout_global_mod"
      || msgid == some "bad_timeout_mod" || msgid == some "bad_timeout_self"
      || msgid == some "bad_timeout_staff" then
    (emitManyOk ["notice", "_promiseTimeout"] [notice_payload, msgid_payload], .actNone)
  else if msgid == some "untimeout_success" || msgid == some "unban_success" then
    (emitManyOk ["notice", "_promiseUnban"] [notice_payload, null_payload], .actNone)
  else if msgid == some "usage_unban" || msgid == some "bad_unban_no_ban" then
    (emitManyOk ["notice", "_promiseUnban"] [notice_payload, msgid_payload], .actNone)
  else if msgid == some "usage_delete" || msgid == some "bad_delete_message_error"
      || msgid == some "bad_delete_message_broadcaster"
      || msgid == some "bad_delete_message_mod" then
    (emitManyOk ["notice", "_promiseDeletemessage"] [notice_payload, msgid_payload], .actNone)
  else if msgid == some "usage_unhost" || msgid == some "not_hosting" then
    (emitManyOk ["notice", "_promiseUnhost"] [notice_payload, msgid_payload], .actNone)
  else if msgid == some "whisper_invalid_login" || msgid == some "whisper_invalid_self"
      || msgid == some "whisper_limit_per_min" || msgid == some "whisper_limit_per_sec"
      || msgid == some "whisper_restricted" || msgid == some "whisper_restricted_recipient" then
    (emitManyOk ["notice", "_promiseWhisper"] [notice_payload, msgid_payload], .actNone)
  else if msgid == some "no_permission" || msgid == some "msg_banned"
      || msgid == some "msg_room_not_found" || msgid == some "msg_channel_suspended"
      || msgid == some "tos_ban" || msgid == some "invalid_user" then
    (emitManyOk
      ["notice", "_promiseBan", "_promiseClear", "_promiseUnban", "_promiseTimeout",
       "_promiseDeletemessage", "_promiseMods", "_promiseMod", "_promiseUnmod",
       "_promiseVips", "_promiseVip", "_promiseUnvip", "_promiseCommercial",
       "_promiseHost", "_promiseUnhost", "_promiseJoin", "_promisePart",
       "_promiseR9kbeta", "_promiseR9kbetaoff", "_promiseSlow", "_promiseSlowoff",
       "_promiseFollowers", "_promiseFollowersoff", "_promiseSubscribers",
       "_promiseSubscribersoff", "_promiseEmoteonly", "_promiseEmoteonlyoff",
       "_promiseWhisper"]
      [notice_payload, [optStrVal msgid, .vstr channel]], .actNone)
  else if msgid == some "msg_rejected" || msgid == some "msg_rejected_mandatory" then
    ([("automod", [.vstr channel, optStrVal msgid, .vstr msg])], .actNone)
  else if msgid == some "unrecognized_cmd" then
    ([("notice", notice_payload)], .actNone)
  else if msgid == some "cmds_available" || msgid == some "host_target_went_offline"
      || msgid == some "msg_censored_broadcaster" || msgid == some "msg_duplicate"
      || msgid == some "msg_emoteonly" || msgid == some "msg_verified_email"
      || msgid == some "msg_ratelimit" || msgid == some "msg_subsonly"
      || msgid == some "msg_timedout" || msgid == some "msg_bad_characters"
      || msgid == some "msg_channel_blocked" || msgid == some "msg_facebook"
      || msgid == some "msg_followersonly" || msgid == some "msg_followersonly_followed"
      || msgid == some "msg_followersonly_zero" || msgid == some "msg_slowmode"
      || msgid == some "msg_suspended" || msgid == some "no_help"
      || msgid == some "usage_disconnect" || msgid == some "usage_help"
      || msgid == some "usage_me" || msgid == some "unavailable_command" then
    ([("notice", notice_payload)], .actNone)
  else if msgid == some "host_on" || msgid == some "host_off" then
    ([], .actNone)
  else if pyIn "Login unsuccessful" msg || pyIn "Login authentication failed" msg then
    ([], .actAuthDisconnect msg)
  else if pyIn "Error logging in" msg || pyIn "Improperly formatted auth" msg then
    ([], .actAuthDisconnect msg)
  else if pyIn "Invalid NICK" msg then
    ([], .actAuthDisconnect "Invalid NICK.")
  else
    ([("notice", notice_payload)], .actNone)

/-- Follows the amended claim C8 for `room_mods`: the segment between the
first and second `": "`, lowercased, split on `", "`, empty entries
dropped — with no period stripping. -/
def roomModsListAmended (msg : String) : List String :=
  (pySplit (pyLower ((pySplit msg ": ").getD 1 "")) ", ").filter (fun name => name != "")

/-- Follows the amended claim C8 for `vips_success`: one trailing period is
first stripped from the whole message, then the same extraction as for
`room_mods` applies. -/
def vipsListAmended (msg : String) : List String :=
  let trimmed := if pyEndsWith msg "." then pyDropLast msg else msg
  roomModsListAmended trimmed

/-! ## EventEmitter listener registry, `once` and reentrant `emit`
(event_emitter.py lines 22-73)

The model fixes one event name and tracks `self._events[event]` for it:
`on`/`once`/`off`/`emit` for one event never touch the lists of other
events.  A listener is a numbered function whose synchronous behaviour is
one of: return normally, re-emit the same event, or raise.  `emit`
snapshots the listener list, then invokes each snapshot entry; a
`once`-wrapper first removes itself (`self.off(event, wrapper)`, a no-op
when it is no longer registered) and then calls the wrapped listener
unconditionally.  A raise propagates and aborts the remaining snapshot.
A single fuel counter bounds the total number of processed entries,
nested emits included; safety theorems hold for every fuel. -/

/-- The synchronous behaviour of a listener body. -/
inductive LBody where
  | plain
  | emitSame
  | raiseErr
deriving DecidableEq, Repr

/-- A listener function: an identity and a body. -/
structure Lst where
  lid : Nat
  body : LBody
deriving DecidableEq, Repr

/-- A registry entry: a listener registered via `on`, or the
`once`-wrapper around a listener. -/
inductive Registered where
  | direct (l : Lst)
  | onceWrap (l : Lst)
deriving DecidableEq, Repr

/-- The identity of the underlying listener. -/
def Registered.lid : Registered → Nat
  | .direct l => l.lid
  | .onceWrap l => l.lid

/-- The body of the underlying listener. -/
def Registered.body : Registered → LBody
  | .direct l => l.body
  | .onceWrap l => l.body

/-- The state of the emitter for the fixed event: the registered listener
list and the trace of listener invocations (by identity). -/
structure EmState where
  listeners : List Registered
  calls : List Nat
deriving DecidableEq, Repr

/-- Python `list.remove`: drop the first occurrence, no-op when absent
(`off` swallows the `ValueError`). -/
def removeFirst : List Registered → Registered → List Registered
  | [], _ => []
  | x :: xs, r => if x = r then xs else x :: removeFirst xs r

/-- Embeds `EventEmitter.on` (event_emitter.py lines 22-27) with the
default unlimited `_max_listeners`. -/
def onE (st : EmState) (r : Registered) : EmState :=
  { st with listeners := st.listeners ++ [r] }

/-- Embeds `EventEmitter.once` (event_emitter.py lines 29-34): register
the wrapper. -/
def onceE (st : EmState) (l : Lst) : EmState :=
  onE st (.onceWrap l)

/-- The state change of invoking one snapshot entry, before its body
runs: a `once`-wrapper first runs `off` on itself (`removeFirst` on the
current list, a no-op when it was already removed), and the invocation of
the underlying listener is recorded. -/
def stepState (st : EmState) (r : Registered) : EmState :=
  match r with
  | .direct _ => { st with calls := st.calls ++ [r.lid] }
  | .onceWrap _ =>
    { st with listeners := removeFirst st.listeners r, calls := st.calls ++ [r.lid] }

/-- Processes the remaining snapshot entries of one `emit`
(event_emitter.py lines 61-73).  For each entry, `stepState` performs the
wrapper removal and records the invocation, then the body runs —
`emitSame` starts a nested `emit` on a fresh snapshot of the current
list, `raiseErr` aborts with the raised flag set and propagates through
enclosing emits. -/
def execEmit : Nat → EmState → List Registered → EmState × Bool
  | 0, st, _ => (st, false)
  | _ + 1, st, [] => (st, false)
  | fuel + 1, st, r :: rest =>
    match r.body with
    | .plain => execEmit fuel (stepState st r) rest
    | .raiseErr => (stepState st r, true)
    | .emitSame =>
      if (execEmit fuel (stepState st r) (stepState st r).listeners).2 then
        ((execEmit fuel (stepState st r) (stepState st r).listeners).1, true)
      else execEmit fuel (execEmit fuel (stepState st r) (stepState st r).listeners).1 rest

/-- One call to `EventEmitter.emit` for the fixed event: snapshot the
current listener list and process it. -/
def emitE (fuel : Nat) (st : EmState) : EmState × Bool :=
  execEmit fuel st st.listeners

/-- A sequence of user-level `emit` calls (a raise propagates to the
caller, who may keep emitting). -/
def emitSeq : List Nat → EmState → EmState
  | [], st => st
  | f :: fs, st => emitSeq fs (emitE f st).1

/-- Invariant carried through one `emit` for a listener `f` registered via
`once`: every registered entry with the identity of `f` is its wrapper,
no listener other than `f` re-emits the event, the wrapper is registered
at most once and snapshotted at most once, and a snapshotted wrapper is
still registered. -/
def OnceInv (f : Lst) (st : EmState) (snap : List Registered) : Prop :=
  (∀ r ∈ st.listeners, r.lid = f.lid → r = Registered.onceWrap f) ∧
  (∀ r ∈ snap, r.lid = f.lid → r = Registered.onceWrap f) ∧
  (∀ r ∈ st.listeners, r ≠ Registered.onceWrap f → r.body ≠ LBody.emitSame) ∧
  (∀ r ∈ snap, r ≠ Registered.onceWrap f → r.body ≠ LBody.emitSame) ∧
  st.listeners.count (Registered.onceWrap f) ≤ 1 ∧
  snap.count (Registered.onceWrap f) ≤ 1 ∧
  (Registered.onceWrap f ∈ snap → Registered.onceWrap f ∈ st.listeners)

/-! ## Theorems -/

/-- Claim C1: for every payload delivered on the awaited event before the
timeout, `_await_success` returns the payload when its first element is
None, raises `CommandFailed` carrying the command and the first element as
reason when the first element is a non-empty string, and raises
`CommandTimedOut` when no payload arrives within the timeout. -/
theorem C1_await_success (event command : String) (rest : Payload) :
    await_success event command (some (Value.null :: rest)) = .ok (Value.null :: rest)
    ∧ (∀ s : String, s ≠ "" →
        await_success event command (some (Value.vstr s :: rest)) =
          .error (.commandFailed command s))
    ∧ await_success event command none = .error (.commandTimedOut event) := by
  refine ⟨rfl, ?_, rfl⟩
  intro s hs
  simp [await_success, wait_for, hs]

/-- Witness for C1 at a concrete failure acknowledgement. -/
theorem C1_await_success_witness :
    ("bad_ban_self" : String) ≠ "" ∧
    await_success "_promiseBan" "/ban bob" (some [Value.vstr "bad_ban_self"]) =
      .error (.commandFailed "/ban bob" "bad_ban_self") :=
  ⟨by decide,
   (C1_await_success "_promiseBan" "/ban bob" []).2.1 "bad_ban_self" (by decide)⟩

/-- Claim C6 counterexample: after `stop()` the pending item is still
queued (not dropped), and a worker restarted by a later `add` runs its
callback. -/
theorem C6_stop_counterexample :
    (mq_stop (mq_add mq0 1)).pending = [1] ∧
    (mq_add (mq_stop (mq_add mq0 1)) 2).workerRunning = true ∧
    (mq_workerStep (mq_add (mq_stop (mq_add mq0 1)) 2)).executed = [1] := by
  decide

/-- Claim C6 as amended: `stop()` cancels the worker but does not drop
pending items; they stay queued and a worker restarted by a later `add`
executes the oldest of them first. -/
theorem C6_stop_keeps_pending (st : MQState) (i j : Nat) (rest : List Nat)
    (h : st.pending = i :: rest) :
    (mq_stop st).pending = st.pending ∧
    (mq_stop st).workerRunning = false ∧
    (mq_workerStep (mq_add (mq_stop st) j)).executed = st.executed ++ [i] := by
  cases hw : st.workerRunning <;>
    simp [mq_stop, mq_add, mq_workerStep, hw, h]

/-- Witness for C6 at a concrete queue state. -/
theorem C6_stop_keeps_pending_witness :
    ({ pending := [5], workerRunning := true, executed := [] } : MQState).pending = 5 :: [] ∧
    (mq_workerStep (mq_add (mq_stop { pending := [5], workerRunning := true, executed := [] }) 7)).executed = [] ++ [5] :=
  ⟨by decide,
   (C6_stop_keeps_pending { pending := [5], workerRunning := true, executed := [] } 5 7 []
     (by decide)).2.2⟩

/-- A concrete disconnect state: close not requested, reconnect disabled,
and the attempt counter beyond the configured maximum. -/
def c7state : DisconnectState :=
  { wasCloseCalled := false, reconnect := false, reconnections := 7,
    maxReconnectAttempts := some 3, maxReconnectInterval := 30,
    reconnectTimer := 1, reconnectDecay := 2, reconnecting := false }

/-- A concrete disconnect state on the retry path. -/
def c7retryState : DisconnectState :=
  { wasCloseCalled := false, reconnect := true, reconnections := 0,
    maxReconnectAttempts := none, maxReconnectInterval := 30,
    reconnectTimer := 1, reconnectDecay := 2, reconnecting := false }

/-- Claim C7 counterexample: with reconnect disabled (and the attempt
counter past the maximum) the handler emits only `disconnected` and stops;
no `reconnect_failed` is emitted, contrary to the claim. -/
theorem C7_counterexample :
    handle_disconnect c7state = (c7state, ["disconnected"], .stop) ∧
    "reconnect_failed" ∉ ["disconnected"] :=
  ⟨rfl, by decide⟩

/-- Claim C7 as amended: when close was not requested, a disabled
reconnect returns after emitting only `disconnected`; `reconnect_failed`
is emitted only when `max_reconnect_attempts` is set and reached;
otherwise the handler sets `reconnecting`, increments `reconnections`,
retries after `min(reconnect_timer, max_reconnect_interval)` and
multiplies `reconnect_timer` by `reconnect_decay`. -/
theorem C7_handle_disconnect (st : DisconnectState) (h0 : st.wasCloseCalled = false) :
    (st.reconnect = false → handle_disconnect st = (st, ["disconnected"], .stop)) ∧
    (∀ m, st.reconnect = true → st.maxReconnectAttempts = some m →
      m ≤ st.reconnections →
      handle_disconnect st = (st, ["disconnected", "reconnect_failed"], .failed)) ∧
    (st.reconnect = true →
      (st.maxReconnectAttempts = none ∨
        ∃ m, st.maxReconnectAttempts = some m ∧ st.reconnections < m) →
      handle_disconnect st =
        ({ st with reconnecting := true, reconnections := st.reconnections + 1,
                   reconnectTimer := st.reconnectTimer * st.reconnectDecay },
         ["disconnected"], .retryAfter (min st.reconnectTimer st.maxReconnectInterval))) := by
  refine ⟨fun hr => ?_, fun m hr hm hle => ?_, fun hr hm => ?_⟩
  · simp [handle_disconnect, h0, hr]
  · simp [handle_disconnect, h0, hr, hm, hle]
  · rcases hm with hm | ⟨m, hm, hlt⟩
    · simp [handle_disconnect, h0, hr, hm]
    · simp [handle_disconnect, h0, hr, hm, Nat.not_le.mpr hlt]

/-- Witness for C7 on the retry path at a concrete state. -/
theorem C7_handle_disconnect_witness :
    c7retryState.wasCloseCalled = false ∧
    handle_disconnect c7retryState =
      ({ c7retryState with reconnecting := true,
                           reconnections := c7retryState.reconnections + 1,
                           reconnectTimer := c7retryState.reconnectTimer * c7retryState.reconnectDecay },
       ["disconnected"],
       .retryAfter (min c7retryState.reconnectTimer c7retryState.maxReconnectInterval)) :=
  ⟨rfl, (C7_handle_disconnect c7retryState rfl).2.2 rfl (Or.inl rfl)⟩

/-- The loop of `emit_many` never hits the empty-list indexing as long as
at least one payload was supplied. -/
theorem emitManyGo_ok (payloads : List Payload) (hp : payloads ≠ []) :
    ∀ (events : List String) (index : Nat) (acc : List (String × Payload)),
    (emitManyGo payloads events index acc).isOk = true := by
  intro events
  induction events with
  | nil => intro index acc; rfl
  | cons e rest ih =>
    intro index acc
    by_cases hidx : index < payloads.length
    · have hp2 := List.get?_eq_get (l := payloads) hidx
      simp [emitManyGo, hidx, hp2, ih]
    · have hlast : payloads.getLast?.isSome := by
        rw [List.getLast?_isSome]; exact hp
      obtain ⟨p, hp2⟩ := Option.isSome_iff_exists.mp hlast
      simp [emitManyGo, hidx, hp2, ih]

/-- Claim C9: with a non-empty event list and no payloads, `emit_many`
raises `IndexError` before emitting any event; with at least one payload
supplied no such error can occur. -/
theorem C9_emit_many (events : List String) (payloads : List Payload)
    (h : events ≠ []) :
    emit_many events [] = .error [] ∧
    (payloads ≠ [] → (emit_many events payloads).isOk = true) := by
  constructor
  · match events, h with
    | e :: rest, _ => rfl
  · intro hp
    exact emitManyGo_ok payloads hp events 0 []

/-- Witness for C9 at concrete inputs. -/
theorem C9_emit_many_witness :
    (["mods"] : List String) ≠ [] ∧
    emit_many ["mods"] [] = .error [] ∧
    (emit_many ["mods"] [[Value.null]]).isOk = true :=
  ⟨by decide,
   (C9_emit_many ["mods"] [[Value.null]] (by decide)).1,
   (C9_emit_many ["mods"] [[Value.null]] (by decide)).2 (by decide)⟩

/-- A connected client authenticated under an anonymous justinfan name,
with all three send queues empty. -/
def anonClientState : ClientState :=
  { username := "justinfan123", connected := true, globalDefaultChannel := "#tmijs",
    messageQ := [], commandQ := [], joinQ := [] }

/-- Claim C3 counterexample: on an anonymous client, `Client.whisper` to a
different user succeeds and enqueues the `/w` command on the command
queue, and `Client.say` with a slash command succeeds and enqueues as
well — neither raises. -/
theorem C3_counterexample :
    is_justinfan anonClientState.username = true ∧
    client_whisper anonClientState "Bob" "hi" none =
      ({ anonClientState with commandQ := [.command "#tmijs" "/w bob hi"] },
       .ok ("bob", "hi")) ∧
    client_say anonClientState "#chan" "/clear" =
      .ok ({ anonClientState with commandQ := [.command "#chan" "/clear"] },
           "#chan", "/clear") :=
  ⟨rfl, rfl, rfl⟩

/-- The normalized channel name is never the empty string. -/
theorem uChannel_ne_empty (v : Option String) : uChannel v ≠ "" := by
  intro hc
  simp only [uChannel] at hc
  split at hc
  · next h =>
    rw [hc] at h
    exact absurd h (by decide)
  · exact List.cons_ne_nil '#' (pyLower (v.getD "")).data (congrArg String.data hc)

/-- Claim C3 as amended: on an anonymous connected client, `ClientBase.say`
— and `Client.say` on a plain chat message — raises `AnonymousMessageError`
and enqueues nothing; but `Client.say` on a command message (leading `/`,
single `.` or `\`, not `/me`) enqueues on the command queue and succeeds
without any anonymity check, and `Client.whisper` to a different username
likewise enqueues its `/w` command and succeeds when no failure
acknowledgement arrives. -/
theorem C3_anonymous_send (st : ClientState) (channel message user : String)
    (hanon : is_justinfan st.username = true) (hconn : st.connected = true)
    (hgdc : st.globalDefaultChannel ≠ "") :
    base_say st channel message = .error .anonymousMessage ∧
    (((pyStartsWith message "." && !pyStartsWith message "..")
        || pyStartsWith message "/" || pyStartsWith message "\\") = false →
      client_say st channel message = .error .anonymousMessage) ∧
    (((pyStartsWith message "." && !pyStartsWith message "..")
        || pyStartsWith message "/" || pyStartsWith message "\\") = true →
      pyTake (pyDrop message 1) 3 ≠ "me " →
      client_say st channel message =
        .ok ({ st with commandQ := st.commandQ
                 ++ [.command (uChannel (some channel)) message] },
             uChannel (some channel), message)) ∧
    (uUsername (some user) ≠ st.username →
      client_whisper st user message none =
        ({ st with commandQ := st.commandQ
             ++ [.command st.globalDefaultChannel
                   ("/w " ++ uUsername (some user) ++ " " ++ message)] },
         .ok (uUsername (some user), message))) := by
  refine ⟨?_, fun hcmd => ?_, fun hcmd hme => ?_, fun huser => ?_⟩
  · simp [base_say, hconn, hanon]
  · simp [client_say, hcmd, base_say, hconn, hanon]
  · simp [client_say, hcmd, hme, send_command, uChannel_ne_empty]
  · simp [client_whisper, huser, send_command, hgdc]

/-- Witness for C3 at a concrete anonymous client. -/
theorem C3_anonymous_send_witness :
    is_justinfan anonClientState.username = true ∧
    base_say anonClientState "#chan" "hello" = .error .anonymousMessage ∧
    client_whisper anonClientState "bob" "hi" none =
      ({ anonClientState with commandQ := anonClientState.commandQ
           ++ [.command anonClientState.globalDefaultChannel
                 ("/w " ++ uUsername (some "bob") ++ " " ++ "hi")] },
       .ok (uUsername (some "bob"), "hi")) :=
  ⟨by decide,
   (C3_anonymous_send anonClientState "#chan" "hello" "bob"
     (by decide) (by decide) (by decide)).1,
   (C3_anonymous_send anonClientState "#chan" "hi" "bob"
     (by decide) (by decide) (by decide)).2.2.2 (by decide)⟩

/-- Claim C5 counterexample: in `parse_message`, a `key=` chunk with an
empty value records the bare marker `True` (Python `value or True`), not
the empty raw string the claim asserts. -/
theorem C5_counterexample :
    parse_message "@key= PING" =
      some { raw := "@key= PING", tags := [("key", TagValue.tbool true)],
             pfx := none, command := some "PING", params := [] } ∧
    TagValue.tbool true ≠ TagValue.tstr "" := by
  decide

/-- `findIdx?` over a prefix free of the searched character finds the
first occurrence right after the prefix. -/
theorem findIdx?_append_eq (l2 : List Char) :
    ∀ cs : List Char, (∀ c ∈ cs, c ≠ '=') →
      (cs ++ '=' :: l2).findIdx? (· == '=') = some cs.length := by
  intro cs
  induction cs with
  | nil => intro _; simp
  | cons c cs ih =>
    intro h
    have hc : (c == '=') = false := by
      simpa using h c (List.mem_cons_self c cs)
    have ih2 := ih (fun x hx => h x (List.mem_cons_of_mem c hx))
    simp [List.findIdx?_cons, hc, ih2]

/-- Splitting `key=value` at the first `=` recovers the two halves when
the key holds no `=`. -/
theorem splitFirstEq_append (key value : String) (hkey : ∀ c ∈ key.data, c ≠ '=') :
    splitFirstEq (key ++ "=" ++ value) = some (key, value) := by
  have hdata : (key ++ "=" ++ value).data = key.data ++ '=' :: value.data := by
    simp
  have htake : (key.data ++ '=' :: value.data).take key.length = key.data :=
    List.take_left key.data _
  have hdrop : (key.data ++ '=' :: value.data).drop (key.length + 1) = value.data := by
    have hassoc : key.data ++ '=' :: value.data = (key.data ++ ['=']) ++ value.data := by
      simp
    rw [hassoc]
    exact List.drop_left' (by simp)
  simp [splitFirstEq, hdata, findIdx?_append_eq value.data key.data hkey, htake, hdrop]

/-- A chunk without `=` does not split. -/
theorem splitFirstEq_none (key : String) (hkey : ∀ c ∈ key.data, c ≠ '=') :
    splitFirstEq key = none := by
  unfold splitFirstEq
  have : key.data.findIdx? (· == '=') = none := by
    rw [List.findIdx?_eq_none_iff]
    intro x hx
    simpa using hkey x hx
  rw [this]

/-- Claim C5 as amended: within the tag segment of `parse_message`, a
chunk `key=` with empty value records the bare marker `True`, identically
to a chunk with no `=`; a chunk `key=value` with non-empty value records
the raw string value. -/
theorem C5_tag_chunk (tags : List (String × TagValue)) (key value : String)
    (hkey : ∀ c ∈ key.data, c ≠ '=') :
    applyTagChunk tags (key ++ "=" ++ value) =
      dictSet tags key (if value = "" then .tbool true else .tstr value) ∧
    applyTagChunk tags (key ++ "=") = dictSet tags key (.tbool true) ∧
    applyTagChunk tags key = dictSet tags key (.tbool true) := by
  refine ⟨?_, ?_, ?_⟩
  · rw [applyTagChunk, splitFirstEq_append key value hkey]
  · have h2 : key ++ "=" = key ++ "=" ++ "" := by simp
    rw [h2, applyTagChunk, splitFirstEq_append key "" hkey]
    rfl
  · rw [applyTagChunk, splitFirstEq_none key hkey]

/-- Witness for C5 at a concrete key. -/
theorem C5_tag_chunk_witness :
    (∀ c ∈ ("key" : String).data, c ≠ '=') ∧
    applyTagChunk [] ("key" ++ "=") = dictSet [] "key" (.tbool true) ∧
    applyTagChunk [] ("key" ++ "=" ++ "v") =
      dictSet [] "key" (if ("v" : String) = "" then .tbool true else .tstr "v") :=
  ⟨by decide,
   (C5_tag_chunk [] "key" "v" (by decide)).2.1,
   (C5_tag_chunk [] "key" "v" (by decide)).1⟩

/-- Claim C8 counterexample: for `room_mods` the dispatcher does not strip
the trailing period, so the last name keeps it. -/
theorem C8_counterexample :
    (handle_notice "#chan" (some "room_mods")
        "The moderators of this channel are: Alice, Bob.").1 =
      [("_promiseMods", [Value.null, Value.vlist ["alice", "bob."]]),
       ("mods", [Value.vstr "#chan", Value.vlist ["alice", "bob."]])] ∧
    (["alice", "bob."] : List String) ≠ ["alice", "bob"] := by
  decide

/-- Claim C8 as amended: for `room_mods` the dispatcher takes the segment
between the first and second `": "`, lowercases it, splits on `", "` and
drops empty entries — with no period stripping; for `vips_success` one
trailing period is first stripped from the whole message and then the
same extraction applies.  Both emit `(None, list)` on the internal
promise event and `(channel, list)` on the public event, in that order. -/
theorem C8_mods_vips_lists (channel msg : String) :
    handle_notice channel (some "room_mods") msg =
      ([("_promiseMods", [Value.null, Value.vlist (roomModsListAmended msg)]),
        ("mods", [Value.vstr channel, Value.vlist (roomModsListAmended msg)])],
       .actNone) ∧
    handle_notice channel (some "vips_success") msg =
      ([("_promiseVips", [Value.null, Value.vlist (vipsListAmended msg)]),
        ("vips", [Value.vstr channel, Value.vlist (vipsListAmended msg)])],
       .actNone) :=
  ⟨rfl, rfl⟩

/-- Claim C2 counterexample: a line feed is escaped to `\n` but decoding
consumes it (`IRC_ESCAPED_CHARS` maps `n` to the empty string), so the
roundtrip loses the character. -/
theorem C2_counterexample :
    unescape_irc (escape_irc "\n") = "" ∧ ("" : String) ≠ "\n" := by
  decide

/-- The unescape scan copies a non-backslash head character. -/
theorem unescapeCore_cons_ne (c : Char) (t : List Char) (hc : c ≠ '\\') :
    unescapeCore (c :: t) = c :: unescapeCore t := by
  cases t with
  | nil => simp [unescapeCore]
  | cons c2 t2 => simp [unescapeCore, hc]

/-- Decoding inverts encoding on strings free of carriage returns and
line feeds. -/
theorem unescapeCore_escapeCore (l : List Char) (h1 : '\n' ∉ l) (h2 : '\r' ∉ l) :
    unescapeCore (escapeCore l) = l := by
  induction l with
  | nil => rfl
  | cons c rest ih =>
    have hn : c ≠ '\n' := fun hc => h1 (hc ▸ List.mem_cons_self _ _)
    have hr : c ≠ '\r' := fun hc => h2 (hc ▸ List.mem_cons_self _ _)
    have ih2 := ih (fun hm => h1 (List.mem_cons_of_mem _ hm))
      (fun hm => h2 (List.mem_cons_of_mem _ hm))
    by_cases hsp : c = ' '
    · subst hsp
      simp [escapeCore, escapeIrcChar, IRC_UNESCAPED_CHARS, unescapeCore,
        isEscapeClass, IRC_ESCAPED_CHARS, ih2]
    · by_cases hsc : c = ';'
      · subst hsc
        simp [escapeCore, escapeIrcChar, IRC_UNESCAPED_CHARS, unescapeCore,
          isEscapeClass, IRC_ESCAPED_CHARS, ih2]
      · by_cases hbs : c = '\\'
        · subst hbs
          simp [escapeCore, escapeIrcChar, IRC_UNESCAPED_CHARS, unescapeCore,
            isEscapeClass, IRC_ESCAPED_CHARS, ih2]
        · have hplain : escapeIrcChar c = [c] := by
            simp [escapeIrcChar, IRC_UNESCAPED_CHARS, hsp, hn, hsc, hr, hbs]
          rw [escapeCore, hplain, List.singleton_append,
            unescapeCore_cons_ne c _ hbs, ih2]

/-- The encoder leaves a character list unchanged when its output holds no
backslash. -/
theorem escapeCore_no_bs (l : List Char)
    (h : (escapeCore l).contains '\\' = false) : escapeCore l = l := by
  induction l with
  | nil => rfl
  | cons c rest ih =>
    rw [escapeCore] at h ⊢
    match hm : IRC_UNESCAPED_CHARS c with
    | some e =>
      rw [escapeIrcChar, hm] at h
      simp [List.contains_cons] at h
    | none =>
      rw [escapeIrcChar, hm] at h ⊢
      simp only [List.singleton_append, List.contains_cons, Bool.or_eq_false_iff] at h
      rw [ih h.2]
      rfl

/-- The encoder maps only the empty list to the empty list. -/
theorem escapeCore_eq_nil (l : List Char) (h : escapeCore l = []) : l = [] := by
  cases l with
  | nil => rfl
  | cons c rest =>
    rw [escapeCore, escapeIrcChar] at h
    match hm : IRC_UNESCAPED_CHARS c with
    | some e => rw [hm] at h; simp at h
    | none => rw [hm] at h; simp at h

/-- Claim C2 as amended: for every string containing no carriage return
and no line feed, `unescape_irc (escape_irc s) = s`; strings containing
CR or LF are not restored because decoding consumes those characters. -/
theorem C2_escape_roundtrip (s : String) (h1 : '\n' ∉ s.data) (h2 : '\r' ∉ s.data) :
    unescape_irc (escape_irc s) = s := by
  by_cases hs : s = ""
  · subst hs; rfl
  · rw [escape_irc, if_neg hs, unescape_irc]
    split
    · next hguard =>
      rcases Bool.or_eq_true_iff.mp hguard with hempty | hnobs
      · exfalso
        have : escapeCore s.data = [] := congrArg String.data (by exact of_decide_eq_true hempty)
        exact hs (by
          have hd := escapeCore_eq_nil s.data this
          cases s
          simp_all)
      · have hnb : (escapeCore s.data).contains '\\' = false := by
          simpa using hnobs
        have := escapeCore_no_bs s.data hnb
        rw [show (⟨escapeCore s.data⟩ : String) = ⟨s.data⟩ from congrArg String.mk this]
    · have := unescapeCore_escapeCore s.data h1 h2
      rw [show ((⟨escapeCore s.data⟩ : String)).data = escapeCore s.data from rfl, this]

/-- Witness for C2 at a concrete string containing every escaped
character except CR and LF. -/
theorem C2_escape_roundtrip_witness :
    '\n' ∉ ("a b;c\\d" : String).data ∧ '\r' ∉ ("a b;c\\d" : String).data ∧
    unescape_irc (escape_irc "a b;c\\d") = "a b;c\\d" :=
  ⟨by decide, by decide, C2_escape_roundtrip "a b;c\\d" (by decide) (by decide)⟩

/-- Claim C4 counterexample: at a run of three spaces the split keeps one
space in the chunk and `lstrip` eats the remaining two, so re-joining with
a single space loses a character; and a message starting with a space
yields an empty first chunk although the message is non-empty. -/
theorem C4_counterexample :
    paginate_message "aa   b" 4 = ["aa ", "b"] ∧
    ("aa " ++ " " ++ "b" : String) ≠ "aa   b" ∧
    paginate_message " abc" 3 = ["", "abc"] ∧
    (" abc" : String) ≠ "" := by
  decide

/-- `rfindSpace` returns an index below the limit holding a space. -/
theorem rfindSpace_some (l : List Char) (limit i : Nat)
    (h : rfindSpace l limit = some i) : i < limit ∧ l.get? i = some ' ' := by
  unfold rfindSpace at h
  have hmem := List.mem_of_getLast?_eq_some h
  have hmem2 := List.mem_filter.mp hmem
  refine ⟨List.mem_range.mp hmem2.1, ?_⟩
  simpa using hmem2.2

/-- Each loop iteration of the paginator strictly shrinks the text (for a
positive limit). -/
theorem paginate_shrink (text : List Char) (limit : Nat) (hl : 0 < limit)
    (hlen : limit < text.length) :
    ((text.drop ((rfindSpace text limit).getD limit)).dropWhile isSpacePy).length
      < text.length := by
  have hdw : ∀ l : List Char, (l.dropWhile isSpacePy).length ≤ l.length :=
    fun l => (List.dropWhile_sublist isSpacePy).length_le
  cases hfind : rfindSpace text limit with
  | none =>
    have h1 := hdw (text.drop limit)
    have h2 : (text.drop limit).length = text.length - limit := List.length_drop limit text
    simp only [hfind, Option.getD_none]
    omega
  | some i =>
    obtain ⟨hi, hsp⟩ := rfindSpace_some text limit i hfind
    simp only [hfind, Option.getD_some]
    by_cases hI : i = 0
    · subst hI
      cases text with
      | nil => simp at hsp
      | cons c t =>
        have hc : c = ' ' := by simpa using hsp
        subst hc
        have h1 := hdw t
        have h2 : ((' ' :: t).dropWhile isSpacePy) = t.dropWhile isSpacePy := by
          simp [List.dropWhile, isSpacePy]
        simp only [List.drop_zero, h2, List.length_cons]
        omega
    · have h1 := hdw (text.drop i)
      have h2 : (text.drop i).length = text.length - i := List.length_drop i text
      have hilen : i < text.length := by
        by_contra hge
        rw [List.get?_eq_none.mpr (Nat.le_of_not_lt hge)] at hsp
        exact Option.noConfusion hsp
      omega

/-- Every chunk the paginator yields fits the limit (with enough fuel for
the whole text). -/
theorem paginateChunks_le (limit : Nat) :
    ∀ (fuel : Nat) (text : List Char), text.length ≤ fuel → 0 < limit →
      ∀ c ∈ paginateChunks fuel text limit, c.length ≤ limit := by
  intro fuel
  induction fuel with
  | zero =>
    intro text hlen hlim c hc
    have htext : text = [] := List.eq_nil_of_length_eq_zero (Nat.le_zero.mp hlen)
    subst htext
    simp only [paginateChunks, List.mem_singleton] at hc
    subst hc
    simp
  | succ fuel ih =>
    intro text hlen hlim c hc
    simp only [paginateChunks] at hc
    split at hc
    · next hcond =>
      rcases List.mem_cons.mp hc with hceq | hcmem
      · subst hceq
        have hsp : (rfindSpace text limit).getD limit ≤ limit := by
          cases hfind : rfindSpace text limit with
          | none => simp
          | some i =>
            obtain ⟨hi, _⟩ := rfindSpace_some text limit i hfind
            simp [Nat.le_of_lt hi]
        calc (text.take ((rfindSpace text limit).getD limit)).length
            ≤ (rfindSpace text limit).getD limit := by
              rw [List.length_take]; omega
          _ ≤ limit := hsp
      · have hshrink := paginate_shrink text limit hlim hcond
        exact ih _ (by omega) hlim c hcmem
    · next hcond =>
      have hceq : c = text := by simpa using hc
      subst hceq
      omega

/-- What pagination preserves: the chunks joined with the whitespace runs
dropped at the splits reproduce the original text. -/
theorem paginateChunks_join (limit : Nat) (hl : 0 < limit) :
    ∀ (fuel : Nat) (text : List Char), text.length ≤ fuel →
      ∃ seps : List (List Char),
        (∀ s ∈ seps, ∀ ch ∈ s, isSpacePy ch = true) ∧
        joinChunksL (paginateChunks fuel text limit) seps = text := by
  intro fuel
  induction fuel with
  | zero =>
    intro text hlen
    have htext : text = [] := List.eq_nil_of_length_eq_zero (Nat.le_zero.mp hlen)
    subst htext
    exact ⟨[], by simp, rfl⟩
  | succ fuel ih =>
    intro text hlen
    by_cases hcond : limit < text.length
    · obtain ⟨seps', hsp', hj'⟩ :=
        ih ((text.drop ((rfindSpace text limit).getD limit)).dropWhile isSpacePy)
          (by have := paginate_shrink text limit hl hcond; omega)
      refine ⟨(text.drop ((rfindSpace text limit).getD limit)).takeWhile isSpacePy :: seps',
        ?_, ?_⟩
      · intro s hs
        rcases List.mem_cons.mp hs with hseq | hsmem
        · subst hseq
          intro ch hch
          exact List.mem_takeWhile_imp hch
        · exact hsp' s hsmem
      · simp only [paginateChunks, if_pos hcond, joinChunksL, hj']
        rw [List.append_assoc, List.takeWhile_append_dropWhile, List.take_append_drop]
    · refine ⟨[], by simp, ?_⟩
      simp [paginateChunks, hcond, joinChunksL]

/-- With the whole text within the limit, exactly one chunk equal to the
text is produced. -/
theorem paginateChunks_single (fuel : Nat) (text : List Char) (limit : Nat)
    (h : text.length ≤ limit) : paginateChunks fuel text limit = [text] := by
  cases fuel with
  | zero => rfl
  | succ fuel => simp [paginateChunks, Nat.not_lt.mpr h]

/-- Joining lifted chunks equals lifting the joined characters. -/
theorem joinChunks_mk : ∀ (cs ss : List (List Char)),
    joinChunks (cs.map fun l => (⟨l⟩ : String)) (ss.map fun l => (⟨l⟩ : String)) =
      ⟨joinChunksL cs ss⟩
  | [], _ => rfl
  | c :: cs, [] => by
    show (⟨c⟩ : String) ++ joinChunks (cs.map fun l => (⟨l⟩ : String)) [] = _
    rw [show ([] : List String) = ([] : List (List Char)).map (fun l => (⟨l⟩ : String)) from rfl,
      joinChunks_mk cs []]
    rfl
  | c :: cs, s :: ss => by
    show (⟨c⟩ : String) ++ ⟨s⟩ ++
        joinChunks (cs.map fun l => (⟨l⟩ : String)) (ss.map fun l => (⟨l⟩ : String)) = _
    rw [joinChunks_mk cs ss]
    rfl

/-- Claim C4 as amended: for a positive limit, every chunk fits the limit;
the chunks joined with the (possibly empty) whitespace runs removed at the
splits reproduce the message; and a message within the limit yields
exactly one chunk equal to it.  (A chunk can be empty for a non-empty
message when the last space of the window sits at position zero.) -/
theorem C4_paginate (m : String) (L : Nat) (hL : 0 < L) :
    (∀ c ∈ paginate_message m L, c.length ≤ L) ∧
    (∃ seps : List String, (∀ s ∈ seps, ∀ ch ∈ s.data, isSpacePy ch = true) ∧
      joinChunks (paginate_message m L) seps = m) ∧
    (m.length ≤ L → paginate_message m L = [m]) := by
  refine ⟨?_, ?_, ?_⟩
  · intro c hc
    obtain ⟨l, hl, hcl⟩ := List.mem_map.mp hc
    subst hcl
    exact paginateChunks_le L m.data.length m.data (Nat.le_refl _) hL l hl
  · obtain ⟨seps, hsp, hj⟩ :=
      paginateChunks_join L hL m.data.length m.data (Nat.le_refl _)
    refine ⟨seps.map fun l => (⟨l⟩ : String), ?_, ?_⟩
    · intro s hs
      obtain ⟨l, hl, hsl⟩ := List.mem_map.mp hs
      subst hsl
      exact hsp l hl
    · rw [paginate_message, joinChunks_mk, hj]
  · intro hlen
    rw [paginate_message, paginateChunks_single m.data.length m.data L hlen]
    rfl

/-- Witness for C4 at a concrete message and limit. -/
theorem C4_paginate_witness :
    0 < 7 ∧ (∀ c ∈ paginate_message "hello world" 7, c.length ≤ 7) :=
  ⟨by decide, (C4_paginate "hello world" 7 (by decide)).1⟩

/-- Claim C10 counterexample: with `once(e, g)` for a listener `g` that
re-emits the event and `once(e, f)` for a plain listener `f`, one `emit`
runs `f` twice — the nested emit started by `g` removes and calls `f`, and
the outer snapshot then reaches the stale wrapper, whose `off` is a no-op
and which calls `f` unconditionally again. -/
theorem C10_counterexample :
    (emitE 5 { listeners := [.onceWrap ⟨1, .emitSame⟩, .onceWrap ⟨2, .plain⟩],
               calls := [] }).1.calls = [1, 2, 2] ∧
    ((emitE 5 { listeners := [.onceWrap ⟨1, .emitSame⟩, .onceWrap ⟨2, .plain⟩],
                calls := [] }).1.calls.count 2) = 2 := by
  decide

/-- Python `list.remove` only removes. -/
theorem removeFirst_sublist (l : List Registered) (r : Registered) :
    List.Sublist (removeFirst l r) l := by
  induction l with
  | nil => exact List.Sublist.refl _
  | cons x xs ih =>
    rw [removeFirst]
    split
    · exact List.sublist_cons_self x xs
    · exact List.Sublist.cons₂ x ih

/-- Removing a present element decrements its count. -/
theorem count_removeFirst_self (l : List Registered) (r : Registered) (h : r ∈ l) :
    (removeFirst l r).count r + 1 = l.count r := by
  induction l with
  | nil => cases h
  | cons x xs ih =>
    rw [removeFirst]
    split
    · next hx => subst hx; simp [List.count_cons]
    · next hx =>
      have hr : r ∈ xs := by
        rcases List.mem_cons.mp h with h1 | h1
        · exact absurd h1.symm hx
        · exact h1
      have hcount := ih hr
      simp only [List.count_cons]
      have hne : x ≠ r := hx
      simp [hne, Ne.symm hne]
      omega

/-- Removing one element leaves the count of any other unchanged. -/
theorem count_removeFirst_ne (l : List Registered) (r r' : Registered) (h : r' ≠ r) :
    (removeFirst l r).count r' = l.count r' := by
  induction l with
  | nil => rfl
  | cons x xs ih =>
    rw [removeFirst]
    split
    · next hx =>
      subst hx
      simp [List.count_cons, Ne.symm h, h]
    · next hx => simp [List.count_cons, ih]

/-- The per-entry step records exactly one invocation. -/
theorem stepState_calls (st : EmState) (r : Registered) :
    (stepState st r).calls = st.calls ++ [r.lid] := by
  cases r <;> rfl

/-- The per-entry step only removes listeners. -/
theorem stepState_sublist (st : EmState) (r : Registered) :
    List.Sublist (stepState st r).listeners st.listeners := by
  cases r with
  | direct l => exact List.Sublist.refl _
  | onceWrap l => exact removeFirst_sublist _ _

/-- `execEmit` only removes listeners, never adds them. -/
theorem execEmit_sublist : ∀ (fuel : Nat) (st : EmState) (snap : List Registered),
    List.Sublist (execEmit fuel st snap).1.listeners st.listeners := by
  intro fuel st snap
  induction fuel, st, snap using execEmit.induct with
  | case1 st snap => exact List.Sublist.refl _
  | case2 fuel st => exact List.Sublist.refl _
  | case3 fuel st r rest hb ih =>
    rw [execEmit, hb]
    exact List.Sublist.trans ih (stepState_sublist st r)
  | case4 fuel st r rest hb =>
    rw [execEmit, hb]
    exact stepState_sublist st r
  | case5 fuel st r rest hb hres ih =>
    rw [execEmit, hb]
    rw [if_pos hres]
    exact List.Sublist.trans ih (stepState_sublist st r)
  | case6 fuel st r rest hb hres ih1 ih2 =>
    rw [execEmit, hb]
    rw [if_neg hres]
    exact List.Sublist.trans ih2 (List.Sublist.trans ih1 (stepState_sublist st r))

/-- Transporting the once-invariant to a smaller state and snapshot. -/
theorem OnceInv_of_sub (f : Lst) (st st' : EmState) (snap snap' : List Registered)
    (h : OnceInv f st snap)
    (hsubL : List.Sublist st'.listeners st.listeners)
    (hsubS : ∀ r ∈ snap', r ∈ st.listeners ∨ r ∈ snap)
    (hcount : snap'.count (Registered.onceWrap f) ≤ 1)
    (hlink : Registered.onceWrap f ∈ snap' → Registered.onceWrap f ∈ st'.listeners) :
    OnceInv f st' snap' := by
  obtain ⟨h1, h2, h3, h4, h5, h6, h7⟩ := h
  refine ⟨?_, ?_, ?_, ?_, ?_, hcount, hlink⟩
  · exact fun r hr => h1 r (hsubL.subset hr)
  · intro r hr
    rcases hsubS r hr with hm | hm
    · exact h1 r hm
    · exact h2 r hm
  · exact fun r hr => h3 r (hsubL.subset hr)
  · intro r hr
    rcases hsubS r hr with hm | hm
    · exact h3 r hm
    · exact h4 r hm
  · exact le_trans (hsubL.count_le _) h5

/-- Invoking the wrapper bumps the call count of `f` by one. -/
theorem stepState_calls_w (st : EmState) (f : Lst) :
    (stepState st (Registered.onceWrap f)).calls.count f.lid
      = st.calls.count f.lid + 1 := by
  rw [stepState_calls, List.count_append, List.count_singleton]
  simp [Registered.lid]

/-- Invoking any other entry leaves the call count of `f` unchanged. -/
theorem stepState_calls_ne (st : EmState) (f : Lst) (r : Registered)
    (h : r.lid ≠ f.lid) :
    (stepState st r).calls.count f.lid = st.calls.count f.lid := by
  rw [stepState_calls, List.count_append, List.count_singleton]
  simp [h]

/-- Invoking any entry other than the wrapper leaves the wrapper count
unchanged. -/
theorem stepState_listeners_ne (st : EmState) (f : Lst) (r : Registered)
    (h : r ≠ Registered.onceWrap f) :
    (stepState st r).listeners.count (Registered.onceWrap f)
      = st.listeners.count (Registered.onceWrap f) := by
  cases r with
  | direct l => rfl
  | onceWrap l =>
    exact count_removeFirst_ne st.listeners (Registered.onceWrap l)
      (Registered.onceWrap f) (fun hc => h hc.symm)

/-- The once-wrapper accounting bound through one emit: the number of
recorded invocations of `f` plus the number of registered wrappers never
grows. -/
theorem execEmit_once_bound (f : Lst) :
    ∀ (fuel : Nat) (st : EmState) (snap : List Registered),
      OnceInv f st snap →
      (execEmit fuel st snap).1.calls.count f.lid
          + (execEmit fuel st snap).1.listeners.count (Registered.onceWrap f)
        ≤ st.calls.count f.lid + st.listeners.count (Registered.onceWrap f) := by
  intro fuel st snap
  induction fuel, st, snap using execEmit.induct with
  | case1 st snap => intro _; exact Nat.le_refl _
  | case2 fuel st => intro _; exact Nat.le_refl _
  | case3 fuel st r rest hb ih =>
    intro h
    rw [execEmit]
    simp only [hb]
    obtain ⟨h1, h2, h3, h4, h5, h6, h7⟩ := h
    by_cases hrw : r = Registered.onceWrap f
    · subst hrw
      have hwmem : Registered.onceWrap f ∈ st.listeners :=
        h7 (List.mem_cons_self _ _)
      have hKpos : 1 ≤ st.listeners.count (Registered.onceWrap f) :=
        List.count_pos_iff.mpr hwmem
      have hrest0 : rest.count (Registered.onceWrap f) = 0 := by
        rw [List.count_cons_self] at h6
        omega
      have hstep_calls := stepState_calls_w st f
      have hstep_list :
          (stepState st (Registered.onceWrap f)).listeners.count (Registered.onceWrap f) + 1
            = st.listeners.count (Registered.onceWrap f) :=
        count_removeFirst_self st.listeners (Registered.onceWrap f) hwmem
      have hinv2 : OnceInv f (stepState st (Registered.onceWrap f)) rest := by
        refine OnceInv_of_sub f st _ (Registered.onceWrap f :: rest) rest
          ⟨h1, h2, h3, h4, h5, by rw [List.count_cons_self]; omega, h7⟩
          (stepState_sublist st _)
          (fun r hr => Or.inr (List.mem_cons_of_mem _ hr))
          (by omega)
          (fun hw => absurd (List.count_pos_iff.mpr hw) (by omega))
      have hbound := ih hinv2
      omega
    · have hrlid : r.lid ≠ f.lid := fun hl => hrw (h2 r (List.mem_cons_self _ _) hl)
      have hstep_calls := stepState_calls_ne st f r hrlid
      have hstep_list := stepState_listeners_ne st f r hrw
      have hrest_count : rest.count (Registered.onceWrap f) ≤ 1 :=
        calc rest.count (Registered.onceWrap f)
            ≤ rest.count (Registered.onceWrap f)
                + (if r == Registered.onceWrap f then 1 else 0) := Nat.le_add_right _ _
          _ = (r :: rest).count (Registered.onceWrap f) :=
              (List.count_cons _ _ _).symm
          _ ≤ 1 := h6
      have hinv2 : OnceInv f (stepState st r) rest := by
        refine OnceInv_of_sub f st _ (r :: rest) rest
          ⟨h1, h2, h3, h4, h5, h6, h7⟩
          (stepState_sublist st _)
          (fun r2 hr2 => Or.inr (List.mem_cons_of_mem _ hr2))
          hrest_count
          (fun hw => ?_)
        have hw2 : Registered.onceWrap f ∈ st.listeners :=
          h7 (List.mem_cons_of_mem _ hw)
        have := List.count_pos_iff.mpr hw2
        exact List.count_pos_iff.mp (by omega)
      have hbound := ih hinv2
      omega
  | case4 fuel st r rest hb =>
    intro h
    rw [execEmit]
    simp only [hb]
    obtain ⟨h1, h2, h3, h4, h5, h6, h7⟩ := h
    by_cases hrw : r = Registered.onceWrap f
    · subst hrw
      have hwmem : Registered.onceWrap f ∈ st.listeners :=
        h7 (List.mem_cons_self _ _)
      have hKpos : 1 ≤ st.listeners.count (Registered.onceWrap f) :=
        List.count_pos_iff.mpr hwmem
      have hstep_calls := stepState_calls_w st f
      have hstep_list :
          (stepState st (Registered.onceWrap f)).listeners.count (Registered.onceWrap f) + 1
            = st.listeners.count (Registered.onceWrap f) :=
        count_removeFirst_self st.listeners (Registered.onceWrap f) hwmem
      omega
    · have hrlid : r.lid ≠ f.lid := fun hl => hrw (h2 r (List.mem_cons_self _ _) hl)
      have hstep_calls := stepState_calls_ne st f r hrlid
      have hstep_list := stepState_listeners_ne st f r hrw
      omega
  | case5 fuel st r rest hb hres ih =>
    intro h
    rw [execEmit]
    simp only [hb]
    rw [if_pos hres]
    show (execEmit fuel (stepState st r) (stepState st r).listeners).1.calls.count f.lid
        + (execEmit fuel (stepState st r) (stepState st r).listeners).1.listeners.count
            (Registered.onceWrap f)
      ≤ st.calls.count f.lid + st.listeners.count (Registered.onceWrap f)
    obtain ⟨h1, h2, h3, h4, h5, h6, h7⟩ := h
    have hrw : r = Registered.onceWrap f := by
      by_contra hne
      exact h4 r (List.mem_cons_self _ _) hne hb
    subst hrw
    have hwmem : Registered.onceWrap f ∈ st.listeners :=
      h7 (List.mem_cons_self _ _)
    have hKpos : 1 ≤ st.listeners.count (Registered.onceWrap f) :=
      List.count_pos_iff.mpr hwmem
    have hstep_calls := stepState_calls_w st f
    have hstep_list :
        (stepState st (Registered.onceWrap f)).listeners.count (Registered.onceWrap f) + 1
          = st.listeners.count (Registered.onceWrap f) :=
      count_removeFirst_self st.listeners (Registered.onceWrap f) hwmem
    have hinv2 : OnceInv f (stepState st (Registered.onceWrap f))
        (stepState st (Registered.onceWrap f)).listeners := by
      refine OnceInv_of_sub f st _ (Registered.onceWrap f :: rest) _
        ⟨h1, h2, h3, h4, h5, h6, h7⟩
        (stepState_sublist st _)
        (fun r2 hr2 => Or.inl ((stepState_sublist st _).subset hr2))
        (by omega)
        (fun hw => hw)
    have hbound := ih hinv2
    omega
  | case6 fuel st r rest hb hres ih1 ih2 =>
    intro h
    rw [execEmit]
    simp only [hb]
    rw [if_neg hres]
    obtain ⟨h1, h2, h3, h4, h5, h6, h7⟩ := h
    have hrw : r = Registered.onceWrap f := by
      by_contra hne
      exact h4 r (List.mem_cons_self _ _) hne hb
    subst hrw
    have hwmem : Registered.onceWrap f ∈ st.listeners :=
      h7 (List.mem_cons_self _ _)
    have hKpos : 1 ≤ st.listeners.count (Registered.onceWrap f) :=
      List.count_pos_iff.mpr hwmem
    have hrest0 : rest.count (Registered.onceWrap f) = 0 := by
      rw [List.count_cons_self] at h6
      omega
    have hstep_calls := stepState_calls_w st f
    have hstep_list :
        (stepState st (Registered.onceWrap f)).listeners.count (Registered.onceWrap f) + 1
          = st.listeners.count (Registered.onceWrap f) :=
      count_removeFirst_self st.listeners (Registered.onceWrap f) hwmem
    have hinv2 : OnceInv f (stepState st (Registered.onceWrap f))
        (stepState st (Registered.onceWrap f)).listeners := by
      refine OnceInv_of_sub f st _ (Registered.onceWrap f :: rest) _
        ⟨h1, h2, h3, h4, h5, by rw [List.count_cons_self]; omega, h7⟩
        (stepState_sublist st _)
        (fun r2 hr2 => Or.inl ((stepState_sublist st _).subset hr2))
        (by omega)
        (fun hw => hw)
    have hbound1 := ih1 hinv2
    have hsub_nested : List.Sublist
        (execEmit fuel (stepState st (Registered.onceWrap f))
          (stepState st (Registered.onceWrap f)).listeners).1.listeners
        st.listeners :=
      List.Sublist.trans (execEmit_sublist _ _ _) (stepState_sublist st _)
    have hinv3 : OnceInv f
        (execEmit fuel (stepState st (Registered.onceWrap f))
          (stepState st (Registered.onceWrap f)).listeners).1 rest := by
      refine OnceInv_of_sub f st _ (Registered.onceWrap f :: rest) rest
        ⟨h1, h2, h3, h4, h5, by rw [List.count_cons_self]; omega, h7⟩
        hsub_nested
        (fun r2 hr2 => Or.inr (List.mem_cons_of_mem _ hr2))
        (by omega)
        (fun hw => absurd (List.count_pos_iff.mpr hw) (by omega))
    have hbound2 := ih2 hinv3
    omega

/-- Claim C10 as amended: for a listener `f` registered via `once`
(identified by an identity that no other registered listener carries),
provided no listener other than `f` synchronously re-emits the event,
`f` runs at most once across any sequence of emits — even if `f` itself
re-emits the event or raises — and once `f` has run its wrapper is no
longer registered (the sum of recorded calls and remaining wrappers stays
at most one).  Without the proviso a sibling listener re-emitting the
event during dispatch can run `f` twice. -/
theorem C10_once_at_most_once (f : Lst) (fuels : List Nat) (st0 : EmState)
    (H1 : ∀ r ∈ st0.listeners, r.lid = f.lid → r = Registered.onceWrap f)
    (H2 : ∀ r ∈ st0.listeners, r ≠ Registered.onceWrap f → r.body ≠ LBody.emitSame)
    (H3 : st0.listeners.count (Registered.onceWrap f) ≤ 1)
    (H4 : st0.calls.count f.lid + st0.listeners.count (Registered.onceWrap f) ≤ 1) :
    (emitSeq fuels st0).calls.count f.lid
      + (emitSeq fuels st0).listeners.count (Registered.onceWrap f) ≤ 1 := by
  induction fuels generalizing st0 with
  | nil => exact H4
  | cons fu fus ih =>
    rw [emitSeq]
    have hsub : List.Sublist (emitE fu st0).1.listeners st0.listeners :=
      execEmit_sublist fu st0 st0.listeners
    have hinv : OnceInv f st0 st0.listeners :=
      ⟨H1, H1, H2, H2, H3, H3, fun h => h⟩
    have hbound : (emitE fu st0).1.calls.count f.lid
        + (emitE fu st0).1.listeners.count (Registered.onceWrap f)
        ≤ st0.calls.count f.lid + st0.listeners.count (Registered.onceWrap f) :=
      execEmit_once_bound f fu st0 st0.listeners hinv
    apply ih
    · exact fun r hr => H1 r (hsub.subset hr)
    · exact fun r hr => H2 r (hsub.subset hr)
    · exact le_trans (hsub.count_le _) H3
    · omega

/-- The initial emitter state for the C10 witness: `f` (identity 1)
registered via `once` next to an unrelated plain listener. -/
def onceWitnessState : EmState :=
  { listeners := [.onceWrap ⟨1, .plain⟩, .direct ⟨2, .plain⟩], calls := [] }

/-- Witness for C10 at a concrete emitter state and two emits. -/
theorem C10_once_at_most_once_witness :
    (∀ r ∈ onceWitnessState.listeners, r.lid = (⟨1, .plain⟩ : Lst).lid →
      r = Registered.onceWrap ⟨1, .plain⟩) ∧
    (emitSeq [5, 5] onceWitnessState).calls.count (⟨1, .plain⟩ : Lst).lid
      + (emitSeq [5, 5] onceWitnessState).listeners.count
          (Registered.onceWrap ⟨1, .plain⟩) ≤ 1 :=
  ⟨by decide,
   C10_once_at_most_once ⟨1, .plain⟩ [5, 5] onceWitnessState
     (by decide) (by decide) (by decide) (by decide)⟩

end PyTmi
